import Mathlib

/-!
Shallow embedding of `src/src/Wave.tsx` (an audio-reactive layered circular
waveform visualization) and proofs about its per-frame update algorithm.

Modelling conventions:
* JavaScript numbers are modelled as real numbers `ℝ`.
* `Uint8Array` audio buffers are modelled as functions `ℕ → ℝ`; the code only
  reads indices `0 .. bufferLength - 1` (raw indices or indices already
  reduced `% bufferLength`).
* `Float32Array` vertex/radius buffers are modelled as `Array ℝ`.
* `Math.random()` values are passed in explicitly (one value per vertex per
  frame), as are the per-undulation-term rotation signs chosen at mount.
* A frame in which the audio analyser is unavailable (microphone acquisition
  failed) is modelled by passing `none` for the audio buffer, matching the
  early-return guard of both `useFrame` callbacks.
-/

/-- Fixed buffer length used by both waveform components (`bufferLength = 512`). -/
def bufferLength : ℕ := 512

/-- One entry of `undulationPattern`: `{ frequency, amplitude, speed }`. -/
structure UndTerm where
  frequency : ℝ
  amplitude : ℝ
  speed : ℝ

/-- Resolved props of `FilledWaveform` (exactly the fields its destructuring binds). -/
structure FilledProps where
  baseRadius : ℝ
  color : String
  color2 : String
  opacity : ℝ
  smoothingFactor : ℝ
  audioScale : ℝ
  speedScale : ℝ
  pulseScale : ℝ
  undulationPattern : List UndTerm

/-- Resolved props of `OutlineWaveform` (exactly the fields its destructuring binds;
note there is no `speedScale`: the outline component never reads that prop). -/
structure OutlineProps where
  baseRadius : ℝ
  color : String
  opacity : ℝ
  smoothingFactor : ℝ
  audioScale : ℝ
  pulseScale : ℝ
  increaseResponseRate : ℝ
  decreaseResponseRate : ℝ
  undulationPattern : List UndTerm

/-- A silent time-domain buffer: every byte equals 128. -/
noncomputable def silentBuffer : ℕ → ℝ := fun _ => 128

/-- A maximally loud constant buffer: every byte equals 255. -/
noncomputable def buffer255 : ℕ → ℝ := fun _ => 255

/-- `averageAudio = (Σ_{i<bufferLength} |dataArray[i] - 128| / bufferLength) * audioScale`. -/
noncomputable def averageAudio (audioScale : ℝ) (dataArray : ℕ → ℝ) : ℝ :=
  (∑ i in Finset.range bufferLength, |dataArray i - 128|) / bufferLength * audioScale

/-- `audioAmplification = 1 + (averageAudio / 128) * 2`. -/
noncomputable def audioAmplification (averageAudio : ℝ) : ℝ :=
  1 + averageAudio / 128 * 2

/-- `targetSpeedMultiplier = Math.min(2.0, 1 + (averageAudio / 128) * speedScale)`.
The filled layer passes its `speedScale` prop; the outline layer passes the
hardcoded constant `0.5`. -/
noncomputable def targetSpeedMultiplier (speedScale averageAudio : ℝ) : ℝ :=
  min 2.0 (1 + averageAudio / 128 * speedScale)

/-- Circularly smoothed sample
`(dataArray[(i-1+N) % N] + dataArray[i] * 2 + dataArray[(i+1) % N]) / 4`
(the JS index `(i - 1 + N) % N` is written `(i + N - 1) % N` because `ℕ`
subtraction truncates at zero; the two agree for `0 ≤ i < N`). -/
noncomputable def smoothedAudio (dataArray : ℕ → ℝ) (i : ℕ) : ℝ :=
  (dataArray ((i + bufferLength - 1) % bufferLength) + dataArray i * 2 +
      dataArray ((i + 1) % bufferLength)) / 4

/-- `audioEffect = ((smoothedAudio - 128) / 128) * audioScale * audioAmplification`. -/
noncomputable def audioEffect (audioScale amplification : ℝ) (dataArray : ℕ → ℝ) (i : ℕ) : ℝ :=
  (smoothedAudio dataArray i - 128) / 128 * audioScale * amplification

/-- `pulseEffect = baseRadius * (averageAudio / 128) * pulseScale`. -/
noncomputable def pulseEffect (baseRadius averageAudio pulseScale : ℝ) : ℝ :=
  baseRadius * (averageAudio / 128) * pulseScale

/-- Filled-layer randomness term `(Math.random() - 0.5) * (averageAudio / 128)`. -/
noncomputable def filledRandomness (averageAudio : ℝ) (rand : ℕ → ℝ) (i : ℕ) : ℝ :=
  (rand i - 0.5) * (averageAudio / 128)

/-- Outline-layer randomness term `(Math.random() - 0.5) * (averageAudio / 128) * 0.75`. -/
noncomputable def outlineRandomness (averageAudio : ℝ) (rand : ℕ → ℝ) (i : ℕ) : ℝ :=
  (rand i - 0.5) * (averageAudio / 128) * 0.75

/-- Per-vertex angle `(i / bufferLength) * Math.PI * 2 - Math.PI / 2`,
identical in both components (initialization and per-frame loop). -/
noncomputable def vertexAngle (i : ℕ) : ℝ :=
  (i : ℝ) / (bufferLength : ℝ) * Real.pi * 2 - Real.pi / 2

/-- One summand of the `undulationPattern.reduce(...)` accumulation, for the
indexed term `x` (the index looks up the mount-time rotation sign):
`sin(angle*freq + t*clampedSpeed*sign)*amp + cos(angle*freq + t*clampedSpeed*sign)*amp`
where `clampedSpeed = Math.min(speed * 2, speed * previousSpeedMultiplier)`. -/
noncomputable def undulationTerm (rotationDirections : ℕ → ℝ)
    (speedMultiplier time angle : ℝ) (x : ℕ × UndTerm) : ℝ :=
  Real.sin (angle * x.2.frequency +
      time * min (x.2.speed * 2) (x.2.speed * speedMultiplier) * rotationDirections x.1) *
    x.2.amplitude +
  Real.cos (angle * x.2.frequency +
      time * min (x.2.speed * 2) (x.2.speed * speedMultiplier) * rotationDirections x.1) *
    x.2.amplitude

/-- The `undulationPattern.reduce(...)` accumulation over all indexed terms. -/
noncomputable def undulation (pattern : List UndTerm) (rotationDirections : ℕ → ℝ)
    (speedMultiplier time angle : ℝ) : ℝ :=
  pattern.enum.foldl
    (fun acc x => acc + undulationTerm rotationDirections speedMultiplier time angle x)
    0

/-- The loop `for i { currentRadii[i] += (target(i) - currentRadii[i]) * factor }`,
expressed as a pointwise rebuild of the radius array (every slot is written
exactly once, from its own previous value). -/
noncomputable def updateRadii (radii : Array ℝ) (target : ℕ → ℝ) (factor : ℝ) : Array ℝ :=
  Array.ofFn (fun (i : Fin radii.size) => radii.get i + (target i.val - radii.get i) * factor)

/-- The filled-layer position writes: the loop writes only `positions[i*6]` and
`positions[i*6 + 1]` for `i < bufferLength` (edge-vertex x and y); every other
slot keeps its previous value. Expressed per index `j`: slots with
`j % 6 = 0` or `j % 6 = 1` (and `j / 6 < bufferLength`) are rewritten. -/
noncomputable def updateFilledPositions (positionsArr : Array ℝ) (radius : ℕ → ℝ) : Array ℝ :=
  Array.ofFn (fun (j : Fin positionsArr.size) =>
    if j.val / 6 < bufferLength then
      if j.val % 6 = 0 then Real.cos (vertexAngle (j.val / 6)) * radius (j.val / 6)
      else if j.val % 6 = 1 then Real.sin (vertexAngle (j.val / 6)) * radius (j.val / 6)
      else positionsArr.get j
    else positionsArr.get j)

/-- The outline-layer position writes: the loop writes only `positions[i*3]` and
`positions[i*3 + 1]` for `i < bufferLength`; every other slot keeps its value. -/
noncomputable def updateOutlinePositions (positionsArr : Array ℝ) (radius : ℕ → ℝ) : Array ℝ :=
  Array.ofFn (fun (j : Fin positionsArr.size) =>
    if j.val / 3 < bufferLength then
      if j.val % 3 = 0 then Real.cos (vertexAngle (j.val / 3)) * radius (j.val / 3)
      else if j.val % 3 = 1 then Real.sin (vertexAngle (j.val / 3)) * radius (j.val / 3)
      else positionsArr.get j
    else positionsArr.get j)

/-- The filled layer's initial `positions` buffer (`bufferLength * 2 * 3` floats):
for each `i`, edge vertex `(cos(angle)*baseRadius, sin(angle)*baseRadius, 0)` at
slots `6i, 6i+1, 6i+2` and center vertex `(0,0,0)` at slots `6i+3 .. 6i+5`. -/
noncomputable def initialFilledPositions (baseRadius : ℝ) : Array ℝ :=
  Array.ofFn (fun (j : Fin (bufferLength * 2 * 3)) =>
    if j.val % 6 = 0 then Real.cos (vertexAngle (j.val / 6)) * baseRadius
    else if j.val % 6 = 1 then Real.sin (vertexAngle (j.val / 6)) * baseRadius
    else 0)

/-- The outline layer's initial `positions` buffer (`bufferLength * 3` floats):
for each `i`, `(cos(angle)*baseRadius, sin(angle)*baseRadius, 0)` at `3i .. 3i+2`. -/
noncomputable def initialOutlinePositions (baseRadius : ℝ) : Array ℝ :=
  Array.ofFn (fun (j : Fin (bufferLength * 3)) =>
    if j.val % 3 = 0 then Real.cos (vertexAngle (j.val / 3)) * baseRadius
    else if j.val % 3 = 1 then Real.sin (vertexAngle (j.val / 3)) * baseRadius
    else 0)

/-- Mutable per-instance state of a `FilledWaveform`. -/
structure FilledState where
  previousSpeedMultiplier : ℝ
  currentRadii : Array ℝ
  positions : Array ℝ

/-- Mutable per-instance state of an `OutlineWaveform` (it additionally tracks
`previousAudioLevel`, initialized to 0). -/
structure OutlineState where
  previousSpeedMultiplier : ℝ
  previousAudioLevel : ℝ
  currentRadii : Array ℝ
  positions : Array ℝ

/-- Initial filled-layer state: speed multiplier `1`, radii
`new Float32Array(bufferLength).fill(baseRadius)`, circle positions. -/
noncomputable def FilledState.init (p : FilledProps) : FilledState where
  previousSpeedMultiplier := 1
  currentRadii := Array.mkArray bufferLength p.baseRadius
  positions := initialFilledPositions p.baseRadius

/-- Initial outline-layer state. -/
noncomputable def OutlineState.init (q : OutlineProps) : OutlineState where
  previousSpeedMultiplier := 1
  previousAudioLevel := 0
  currentRadii := Array.mkArray bufferLength q.baseRadius
  positions := initialOutlinePositions q.baseRadius

/-- Filled layer speed-multiplier blend:
`previousSpeedMultiplier += (target - previousSpeedMultiplier) * Math.min(0.05, smoothingFactor)`. -/
noncomputable def filledNewSpeedMultiplier (p : FilledProps) (m avg : ℝ) : ℝ :=
  m + (targetSpeedMultiplier p.speedScale avg - m) * min 0.05 p.smoothingFactor

/-- Filled layer per-vertex smoothing target `pulsedRadius + audioEffect + randomness`
(with `pulsedRadius = baseRadius + pulseEffect`). -/
noncomputable def filledRadiiTarget (p : FilledProps) (avg : ℝ) (dataArray rand : ℕ → ℝ)
    (i : ℕ) : ℝ :=
  p.baseRadius + pulseEffect p.baseRadius avg p.pulseScale +
    audioEffect p.audioScale (audioAmplification avg) dataArray i +
    filledRandomness avg rand i

/-- Outline layer per-vertex smoothing target. -/
noncomputable def outlineRadiiTarget (q : OutlineProps) (avg : ℝ) (dataArray rand : ℕ → ℝ)
    (i : ℕ) : ℝ :=
  q.baseRadius + pulseEffect q.baseRadius avg q.pulseScale +
    audioEffect q.audioScale (audioAmplification avg) dataArray i +
    outlineRandomness avg rand i

/-- Outline layer asymmetric smoothing:
`isIncreasing ? Math.min(0.08, smoothingFactor * increaseResponseRate)
             : Math.min(0.04, smoothingFactor * decreaseResponseRate)`
where `isIncreasing = averageAudio > previousAudioLevel`. -/
noncomputable def dynamicSmoothingFactor (q : OutlineProps) (avg prevLevel : ℝ) : ℝ :=
  if prevLevel < avg then min 0.08 (q.smoothingFactor * q.increaseResponseRate)
  else min 0.04 (q.smoothingFactor * q.decreaseResponseRate)

/-- The per-vertex rendered radius `radius = currentRadii[i] + undulation`,
read off a state whose speed multiplier and radii have already been updated
this frame. -/
noncomputable def filledRenderedRadius (p : FilledProps) (rot : ℕ → ℝ) (st : FilledState)
    (time : ℝ) (i : ℕ) : ℝ :=
  st.currentRadii.getD i 0 +
    undulation p.undulationPattern rot st.previousSpeedMultiplier time (vertexAngle i)

/-- Outline analogue of `filledRenderedRadius`. -/
noncomputable def outlineRenderedRadius (q : OutlineProps) (rot : ℕ → ℝ) (st : OutlineState)
    (time : ℝ) (i : ℕ) : ℝ :=
  st.currentRadii.getD i 0 +
    undulation q.undulationPattern rot st.previousSpeedMultiplier time (vertexAngle i)

/-- One `useFrame` callback of `FilledWaveform`. `audio = none` models the
early-return guard (analyser/data refs null): the whole update is skipped. -/
noncomputable def filledFrame (p : FilledProps) (rot : ℕ → ℝ) (audio : Option (ℕ → ℝ))
    (time : ℝ) (rand : ℕ → ℝ) (st : FilledState) : FilledState :=
  match audio with
  | none => st
  | some dataArray =>
    let avg := averageAudio p.audioScale dataArray
    let m := filledNewSpeedMultiplier p st.previousSpeedMultiplier avg
    let radii := updateRadii st.currentRadii (filledRadiiTarget p avg dataArray rand)
      p.smoothingFactor
    { previousSpeedMultiplier := m
      currentRadii := radii
      positions := updateFilledPositions st.positions
        (filledRenderedRadius p rot
          { previousSpeedMultiplier := m, currentRadii := radii, positions := st.positions }
          time) }

/-- One `useFrame` callback of `OutlineWaveform`. -/
noncomputable def outlineFrame (q : OutlineProps) (rot : ℕ → ℝ) (audio : Option (ℕ → ℝ))
    (time : ℝ) (rand : ℕ → ℝ) (st : OutlineState) : OutlineState :=
  match audio with
  | none => st
  | some dataArray =>
    let avg := averageAudio q.audioScale dataArray
    let dsf := dynamicSmoothingFactor q avg st.previousAudioLevel
    let m := st.previousSpeedMultiplier +
      (targetSpeedMultiplier 0.5 avg - st.previousSpeedMultiplier) * dsf
    let radii := updateRadii st.currentRadii (outlineRadiiTarget q avg dataArray rand) dsf
    { previousSpeedMultiplier := m
      previousAudioLevel := avg
      currentRadii := radii
      positions := updateOutlinePositions st.positions
        (outlineRenderedRadius q rot
          { previousSpeedMultiplier := m, previousAudioLevel := avg,
            currentRadii := radii, positions := st.positions }
          time) }

/-- `n` rendered frames of a `FilledWaveform` instance, from mount. Frame `k`
(for `k < n`) consumes `audio k`, `times k` and random draws `rands k`. -/
noncomputable def filledIterate (p : FilledProps) (rot : ℕ → ℝ) (audio : ℕ → Option (ℕ → ℝ))
    (times : ℕ → ℝ) (rands : ℕ → ℕ → ℝ) : ℕ → FilledState
  | 0 => FilledState.init p
  | n + 1 => filledFrame p rot (audio n) (times n) (rands n)
      (filledIterate p rot audio times rands n)

/-- `n` rendered frames of an `OutlineWaveform` instance, from mount. -/
noncomputable def outlineIterate (q : OutlineProps) (rot : ℕ → ℝ) (audio : ℕ → Option (ℕ → ℝ))
    (times : ℕ → ℝ) (rands : ℕ → ℕ → ℝ) : ℕ → OutlineState
  | 0 => OutlineState.init q
  | n + 1 => outlineFrame q rot (audio n) (times n) (rands n)
      (outlineIterate q rot audio times rands n)

/-- The filled layer's triangulation index loop after `i` iterations: each
iteration appends `indices[i*3] = i*2`, `indices[i*3+1] = ((i+1)%N)*2`,
`indices[i*3+2] = i*2 + 1`. -/
def triangulationLoop (N : ℕ) : ℕ → List ℕ
  | 0 => []
  | i + 1 => triangulationLoop N i ++ [i * 2, ((i + 1) % N) * 2, i * 2 + 1]

/-- The complete triangulation index buffer for a filled layer of buffer length `N`. -/
def triangulationIndices (N : ℕ) : List ℕ := triangulationLoop N N

/-- Default props of `FilledWaveform` (its destructuring defaults). -/
noncomputable def filledDefaults : FilledProps where
  baseRadius := 10
  color := "#4a9eff"
  color2 := "#0066cc"
  opacity := 0.4
  smoothingFactor := 0.1
  audioScale := 0.8
  speedScale := 0.5
  pulseScale := 0.2
  undulationPattern := [⟨3, 0.3, 0.8⟩, ⟨5, 0.2, 0.5⟩, ⟨2, 0.4, 1.2⟩]

/-- Default props of `OutlineWaveform` (its destructuring defaults). -/
noncomputable def outlineDefaults : OutlineProps where
  baseRadius := 10
  color := "#ff1493"
  opacity := 0.8
  smoothingFactor := 0.1
  audioScale := 0.8
  pulseScale := 0.2
  increaseResponseRate := 2.0
  decreaseResponseRate := 0.5
  undulationPattern := [⟨2, 0.3, 1.5⟩, ⟨4, 0.4, 0.4⟩, ⟨3, 0.2, 0.6⟩]

/-- One composited layer: either a `FilledWaveform` or an `OutlineWaveform`
with its resolved props. -/
inductive WaveLayer where
  | filled : FilledProps → WaveLayer
  | outline : OutlineProps → WaveLayer

/-- The six layers `AudioWaveform` renders (in JSX order), with every prop value
resolved: explicitly passed props take the passed expression, all others take
the component defaults. The outline elements never pass `speedScale`,
`increaseResponseRate` or `decreaseResponseRate`. -/
noncomputable def audioWaveformLayers (size amplitudeFactor audioFactor speedFactor
    pulseScale : ℝ) : List WaveLayer :=
  [WaveLayer.filled
      { baseRadius := size * 0.9, color := "#60a5fa", color2 := "#3b82f6", opacity := 0.3,
        smoothingFactor := 0.2, audioScale := audioFactor * 1.25,
        speedScale := speedFactor * 0.75, pulseScale := pulseScale,
        undulationPattern := [⟨4, amplitudeFactor * 0.3, 0.5⟩, ⟨6, amplitudeFactor * 0.2, 0.3⟩,
          ⟨2, amplitudeFactor * 0.3, 0.4⟩] },
    WaveLayer.outline
      { baseRadius := size * 0.875, color := "#fff", opacity := 1, smoothingFactor := 0.15,
        audioScale := audioFactor * 2, pulseScale := pulseScale,
        increaseResponseRate := 2.0, decreaseResponseRate := 0.5,
        undulationPattern := [⟨3, amplitudeFactor * 0.3, 1.6⟩, ⟨5, amplitudeFactor * 0.3, 0.5⟩,
          ⟨2, amplitudeFactor * 0.2, 0.8⟩] },
    WaveLayer.filled
      { baseRadius := size * 0.95, color := "#f472b6", color2 := "#ec4899", opacity := 0.2,
        smoothingFactor := 0.15, audioScale := audioFactor * 1.5,
        speedScale := speedFactor * 0.5, pulseScale := pulseScale,
        undulationPattern := [⟨3, amplitudeFactor * 0.3, 0.4⟩, ⟨5, amplitudeFactor * 0.2, 0.3⟩,
          ⟨2, amplitudeFactor * 0.4, 0.5⟩] },
    WaveLayer.outline
      { baseRadius := size * 0.925, color := "#fff", opacity := 0.5, smoothingFactor := 0.1,
        audioScale := audioFactor * 2.5, pulseScale := pulseScale,
        increaseResponseRate := 2.0, decreaseResponseRate := 0.5,
        undulationPattern := [⟨2, amplitudeFactor * 0.3, 1.5⟩, ⟨4, amplitudeFactor * 0.4, 0.4⟩,
          ⟨3, amplitudeFactor * 0.2, 0.6⟩] },
    WaveLayer.filled
      { baseRadius := size * 1.0, color := "#c084fc", color2 := "#a855f7", opacity := 0.2,
        smoothingFactor := 0.1, audioScale := audioFactor * 1.25,
        speedScale := speedFactor * 0.375, pulseScale := pulseScale,
        undulationPattern := [⟨2, amplitudeFactor * 0.2, 0.3⟩, ⟨4, amplitudeFactor * 0.15, 0.2⟩,
          ⟨3, amplitudeFactor * 0.25, 0.4⟩] },
    WaveLayer.outline
      { baseRadius := size * 0.975, color := "#fff", opacity := 0.25, smoothingFactor := 0.08,
        audioScale := audioFactor * 1.75, pulseScale := pulseScale,
        increaseResponseRate := 2.0, decreaseResponseRate := 0.5,
        undulationPattern := [⟨2, amplitudeFactor * 0.25, 1.2⟩, ⟨3, amplitudeFactor * 0.3, 0.3⟩,
          ⟨4, amplitudeFactor * 0.15, 0.5⟩] }]

/-! ### Array access helpers -/

theorem getD_pos (a : Array ℝ) (j : ℕ) (h : j < a.size) : a.getD j 0 = a[j] := by
  rw [Array.getD, dif_pos h]
  rfl

theorem getD_ofFn {n : ℕ} (f : Fin n → ℝ) (j : ℕ) (h : j < n) :
    (Array.ofFn f).getD j 0 = f ⟨j, h⟩ := by
  have hs : j < (Array.ofFn f).size := by simpa using h
  rw [getD_pos _ _ hs]
  simp

theorem getD_mkArray (n : ℕ) (v : ℝ) (j : ℕ) (h : j < n) :
    (Array.mkArray n v).getD j 0 = v := by
  have hs : j < (Array.mkArray n v).size := by simpa using h
  rw [getD_pos _ _ hs]
  simp

theorem getD_of_size_le (a : Array ℝ) (j : ℕ) (h : a.size ≤ j) : a.getD j 0 = 0 := by
  rw [Array.getD]
  simp [Nat.not_lt.mpr h]

theorem get_eq_getD (a : Array ℝ) (j : ℕ) (h : j < a.size) : a.get ⟨j, h⟩ = a.getD j 0 := by
  rw [getD_pos _ _ h]
  simp

/-! ### Size preservation -/

theorem size_updateRadii (radii : Array ℝ) (target : ℕ → ℝ) (factor : ℝ) :
    (updateRadii radii target factor).size = radii.size := by
  simp [updateRadii]

theorem size_updateFilledPositions (a : Array ℝ) (radius : ℕ → ℝ) :
    (updateFilledPositions a radius).size = a.size := by
  simp [updateFilledPositions]

theorem size_updateOutlinePositions (a : Array ℝ) (radius : ℕ → ℝ) :
    (updateOutlinePositions a radius).size = a.size := by
  simp [updateOutlinePositions]

theorem filled_radii_size (p : FilledProps) (rot : ℕ → ℝ) (audio : ℕ → Option (ℕ → ℝ))
    (times : ℕ → ℝ) (rands : ℕ → ℕ → ℝ) (n : ℕ) :
    (filledIterate p rot audio times rands n).currentRadii.size = bufferLength := by
  induction n with
  | zero => simp [filledIterate, FilledState.init]
  | succ n ih =>
    rw [filledIterate]
    cases audio n with
    | none => simpa [filledFrame] using ih
    | some d => simpa [filledFrame, size_updateRadii] using ih

theorem outline_radii_size (q : OutlineProps) (rot : ℕ → ℝ) (audio : ℕ → Option (ℕ → ℝ))
    (times : ℕ → ℝ) (rands : ℕ → ℕ → ℝ) (n : ℕ) :
    (outlineIterate q rot audio times rands n).currentRadii.size = bufferLength := by
  induction n with
  | zero => simp [outlineIterate, OutlineState.init]
  | succ n ih =>
    rw [outlineIterate]
    cases audio n with
    | none => simpa [outlineFrame] using ih
    | some d => simpa [outlineFrame, size_updateRadii] using ih

theorem filled_positions_size (p : FilledProps) (rot : ℕ → ℝ) (audio : ℕ → Option (ℕ → ℝ))
    (times : ℕ → ℝ) (rands : ℕ → ℕ → ℝ) (n : ℕ) :
    (filledIterate p rot audio times rands n).positions.size = bufferLength * 2 * 3 := by
  induction n with
  | zero => simp [filledIterate, FilledState.init, initialFilledPositions]
  | succ n ih =>
    rw [filledIterate]
    cases audio n with
    | none => simpa [filledFrame] using ih
    | some d => simpa [filledFrame, size_updateFilledPositions] using ih

theorem outline_positions_size (q : OutlineProps) (rot : ℕ → ℝ) (audio : ℕ → Option (ℕ → ℝ))
    (times : ℕ → ℝ) (rands : ℕ → ℕ → ℝ) (n : ℕ) :
    (outlineIterate q rot audio times rands n).positions.size = bufferLength * 3 := by
  induction n with
  | zero => simp [outlineIterate, OutlineState.init, initialOutlinePositions]
  | succ n ih =>
    rw [outlineIterate]
    cases audio n with
    | none => simpa [outlineFrame] using ih
    | some d => simpa [outlineFrame, size_updateOutlinePositions] using ih

/-! ### Pointwise update values -/

theorem getD_updateRadii (radii : Array ℝ) (target : ℕ → ℝ) (factor : ℝ) (j : ℕ)
    (h : j < radii.size) :
    (updateRadii radii target factor).getD j 0 =
      radii.getD j 0 + (target j - radii.getD j 0) * factor := by
  rw [updateRadii, getD_ofFn _ j h, getD_pos _ _ h]
  simp

theorem getD_updateFilledPositions_untouched (a : Array ℝ) (radius : ℕ → ℝ) (j : ℕ)
    (h2 : 2 ≤ j % 6) :
    (updateFilledPositions a radius).getD j 0 = a.getD j 0 := by
  rcases Nat.lt_or_ge j a.size with h | h
  · rw [updateFilledPositions, getD_ofFn _ j h, getD_pos _ _ h]
    have h0 : ¬ j % 6 = 0 := by omega
    have h1 : ¬ j % 6 = 1 := by omega
    simp [h0, h1]
  · rw [getD_of_size_le _ _ h]
    apply getD_of_size_le
    simpa [updateFilledPositions] using h

theorem getD_updateOutlinePositions_untouched (a : Array ℝ) (radius : ℕ → ℝ) (j : ℕ)
    (h2 : j % 3 = 2) :
    (updateOutlinePositions a radius).getD j 0 = a.getD j 0 := by
  rcases Nat.lt_or_ge j a.size with h | h
  · rw [updateOutlinePositions, getD_ofFn _ j h, getD_pos _ _ h]
    have h0 : ¬ j % 3 = 0 := by omega
    have h1 : ¬ j % 3 = 1 := by omega
    simp [h0, h1]
  · rw [getD_of_size_le _ _ h]
    apply getD_of_size_le
    simpa [updateOutlinePositions] using h

/-! ### Speed multiplier bounds -/

theorem targetSpeedMultiplier_le_two (scale avg : ℝ) : targetSpeedMultiplier scale avg ≤ 2 := by
  rw [targetSpeedMultiplier]
  exact le_trans (min_le_left _ _) (by norm_num)

theorem blend_le_two {m t b : ℝ} (hm : m ≤ 2) (ht : t ≤ 2) (hb0 : 0 ≤ b) (hb1 : b ≤ 1) :
    m + (t - m) * b ≤ 2 := by
  have h1 : m * (1 - b) ≤ 2 * (1 - b) := mul_le_mul_of_nonneg_right hm (by linarith)
  have h2 : t * b ≤ 2 * b := mul_le_mul_of_nonneg_right ht hb0
  nlinarith

theorem filled_speed_invariant (p : FilledProps) (rot : ℕ → ℝ) (audio : ℕ → Option (ℕ → ℝ))
    (times : ℕ → ℝ) (rands : ℕ → ℕ → ℝ)
    (hb0 : 0 ≤ min 0.05 p.smoothingFactor) (hb1 : min 0.05 p.smoothingFactor ≤ 1) (n : ℕ) :
    (filledIterate p rot audio times rands n).previousSpeedMultiplier ≤ 2 := by
  induction n with
  | zero =>
    simp only [filledIterate, FilledState.init]
    norm_num
  | succ n ih =>
    rw [filledIterate]
    cases audio n with
    | none => simpa [filledFrame] using ih
    | some d =>
      simp only [filledFrame, filledNewSpeedMultiplier]
      exact blend_le_two ih (targetSpeedMultiplier_le_two _ _) hb0 hb1

theorem outline_speed_invariant (q : OutlineProps) (rot : ℕ → ℝ) (audio : ℕ → Option (ℕ → ℝ))
    (times : ℕ → ℝ) (rands : ℕ → ℕ → ℝ)
    (hb : ∀ avg prev : ℝ, 0 ≤ dynamicSmoothingFactor q avg prev ∧
      dynamicSmoothingFactor q avg prev ≤ 1) (n : ℕ) :
    (outlineIterate q rot audio times rands n).previousSpeedMultiplier ≤ 2 := by
  induction n with
  | zero =>
    simp only [outlineIterate, OutlineState.init]
    norm_num
  | succ n ih =>
    rw [outlineIterate]
    cases audio n with
    | none => simpa [outlineFrame] using ih
    | some d =>
      simp only [outlineFrame]
      exact blend_le_two ih (targetSpeedMultiplier_le_two _ _) (hb _ _).1 (hb _ _).2

theorem dynamicSmoothingFactor_mem_unit (q : OutlineProps)
    (h1 : 0 ≤ q.smoothingFactor * q.increaseResponseRate)
    (h2 : 0 ≤ q.smoothingFactor * q.decreaseResponseRate) (avg prev : ℝ) :
    0 ≤ dynamicSmoothingFactor q avg prev ∧ dynamicSmoothingFactor q avg prev ≤ 1 := by
  rw [dynamicSmoothingFactor]
  split
  · exact ⟨le_min (by norm_num) h1, le_trans (min_le_left _ _) (by norm_num)⟩
  · exact ⟨le_min (by norm_num) h2, le_trans (min_le_left _ _) (by norm_num)⟩

/-- Claim C2: for both the filled and the outline layer, the running speed
multiplier (initialized to 1, blended each frame toward
`min(2.0, 1 + (averageAudio/128)*scale)`) stays bounded above by 2.0 on every
reachable frame, for every sequence of audio buffers, given that the per-frame
blend factor (for filled: `min(0.05, smoothingFactor)`; for outline: the
dynamic smoothing factor) lies in `[0, 1]`. -/
theorem claim2_speed_multiplier_le_two (p : FilledProps) (q : OutlineProps)
    (rotF rotO : ℕ → ℝ) (audioF audioO : ℕ → Option (ℕ → ℝ)) (timesF timesO : ℕ → ℝ)
    (randsF randsO : ℕ → ℕ → ℝ)
    (hpb : 0 ≤ min 0.05 p.smoothingFactor ∧ min 0.05 p.smoothingFactor ≤ 1)
    (hqb : ∀ avg prev : ℝ, 0 ≤ dynamicSmoothingFactor q avg prev ∧
      dynamicSmoothingFactor q avg prev ≤ 1) :
    (∀ n, (filledIterate p rotF audioF timesF randsF n).previousSpeedMultiplier ≤ 2.0) ∧
    (∀ n, (outlineIterate q rotO audioO timesO randsO n).previousSpeedMultiplier ≤ 2.0) := by
  constructor
  · intro n
    have := filled_speed_invariant p rotF audioF timesF randsF hpb.1 hpb.2 n
    linarith
  · intro n
    have := outline_speed_invariant q rotO audioO timesO randsO hqb n
    linarith

/-- Witness for C2 at the default props, blend factors checked concretely. -/
theorem claim2_witness :
    (filledIterate filledDefaults (fun _ => 1) (fun _ => none) (fun _ => 0) (fun _ _ => 0)
      7).previousSpeedMultiplier ≤ 2.0 := by
  have h := claim2_speed_multiplier_le_two filledDefaults outlineDefaults
    (fun _ => 1) (fun _ => 1) (fun _ => none) (fun _ => none) (fun _ => 0) (fun _ => 0)
    (fun _ _ => 0) (fun _ _ => 0)
    (by constructor <;> simp [filledDefaults] <;> norm_num)
    (dynamicSmoothingFactor_mem_unit outlineDefaults
      (by simp [outlineDefaults]; norm_num) (by simp [outlineDefaults]; norm_num))
  exact h.1 7

/-- Claim C3: the outline layer's dynamic smoothing factor is at most 0.08 when
the current average audio level exceeds the previous frame's level, and at most
0.04 otherwise, for every configured `smoothingFactor`, `increaseResponseRate`
and `decreaseResponseRate`. -/
theorem claim3_outline_smoothing_cap (q : OutlineProps) (avg prevLevel : ℝ) :
    dynamicSmoothingFactor q avg prevLevel ≤ if prevLevel < avg then 0.08 else 0.04 := by
  rw [dynamicSmoothingFactor]
  split <;> [exact min_le_left _ _; exact min_le_left _ _]

/-- Claim C8: the per-vertex radius array of each layer instance has exactly 512
entries at creation, and keeps exactly 512 entries after any number of frames
(with or without audio). -/
theorem claim8_radii_length_invariant (p : FilledProps) (q : OutlineProps)
    (rotF rotO : ℕ → ℝ) (audioF audioO : ℕ → Option (ℕ → ℝ)) (timesF timesO : ℕ → ℝ)
    (randsF randsO : ℕ → ℕ → ℝ) :
    (∀ n, (filledIterate p rotF audioF timesF randsF n).currentRadii.size = 512) ∧
    (∀ n, (outlineIterate q rotO audioO timesO randsO n).currentRadii.size = 512) := by
  constructor
  · intro n
    simpa [bufferLength] using filled_radii_size p rotF audioF timesF randsF n
  · intro n
    simpa [bufferLength] using outline_radii_size q rotO audioO timesO randsO n

/-! ### Triangulation index buffer -/

theorem triangulationLoop_length (N i : ℕ) : (triangulationLoop N i).length = 3 * i := by
  induction i with
  | zero => rfl
  | succ i ih =>
    rw [triangulationLoop]
    simp [ih]
    omega

theorem triangulationLoop_get (N i j : ℕ) (hj : j < i) :
    (triangulationLoop N i)[3 * j]? = some (j * 2) ∧
    (triangulationLoop N i)[3 * j + 1]? = some (((j + 1) % N) * 2) ∧
    (triangulationLoop N i)[3 * j + 2]? = some (j * 2 + 1) := by
  induction i with
  | zero => omega
  | succ i ih =>
    rcases Nat.lt_or_ge j i with h | h
    · have hlen : (triangulationLoop N i).length = 3 * i := triangulationLoop_length N i
      rw [triangulationLoop]
      refine ⟨?_, ?_, ?_⟩
      · rw [List.getElem?_append_left (by omega)]
        exact (ih h).1
      · rw [List.getElem?_append_left (by omega)]
        exact (ih h).2.1
      · rw [List.getElem?_append_left (by omega)]
        exact (ih h).2.2
    · have hji : j = i := by omega
      subst hji
      have hlen : (triangulationLoop N j).length = 3 * j := triangulationLoop_length N j
      rw [triangulationLoop]
      refine ⟨?_, ?_, ?_⟩ <;> rw [List.getElem?_append_right (by omega)] <;>
        simp [hlen]

theorem triangulationLoop_mem_lt (N : ℕ) (hN : 0 < N) (i : ℕ) (hi : i ≤ N) :
    ∀ x ∈ triangulationLoop N i, x < 2 * N := by
  induction i with
  | zero => simp [triangulationLoop]
  | succ i ih =>
    intro x hx
    rw [triangulationLoop] at hx
    rcases List.mem_append.mp hx with h | h
    · exact ih (by omega) x h
    · have hm : (i + 1) % N < N := Nat.mod_lt _ hN
      simp only [List.mem_cons, List.not_mem_nil, or_false] at h
      rcases h with h | h | h <;> omega

/-- Claim C5: the filled layer's triangulation index buffer for `N = 512` has
exactly `3 * N` entries, every entry is a valid vertex slot in `0 .. 2N - 1`,
and the `i`-th triangle is `(2i, 2((i+1) mod N), 2i + 1)`
(edge vertex `i`, edge vertex `i+1 mod N`, center vertex `i`). -/
theorem claim5_triangulation_buffer :
    (triangulationIndices 512).length = 3 * 512 ∧
    (∀ x ∈ triangulationIndices 512, x < 2 * 512) ∧
    (∀ i : Fin 512,
      (triangulationIndices 512)[3 * i.val]? = some (2 * i.val) ∧
      (triangulationIndices 512)[3 * i.val + 1]? = some (2 * ((i.val + 1) % 512)) ∧
      (triangulationIndices 512)[3 * i.val + 2]? = some (2 * i.val + 1)) := by
  refine ⟨triangulationLoop_length 512 512, ?_, ?_⟩
  · exact triangulationLoop_mem_lt 512 (by norm_num) 512 le_rfl
  · intro i
    have h := triangulationLoop_get 512 512 i.val i.isLt
    simp only [triangulationIndices]
    refine ⟨?_, ?_, ?_⟩
    · rw [h.1, Nat.mul_comm]
    · rw [h.2.1, Nat.mul_comm]
    · rw [h.2.2, Nat.mul_comm]

/-- Witness for C5: the first triangle and a concrete in-range entry. -/
theorem claim5_witness :
    (triangulationIndices 512)[0]? = some 0 ∧ (triangulationIndices 512)[1]? = some 2 ∧
    (triangulationIndices 512)[2]? = some 1 ∧ (0 : ℕ) < 2 * 512 := by
  have h := claim5_triangulation_buffer
  have h0 := h.2.2 ⟨0, by decide⟩
  refine ⟨by simpa using h0.1, by simpa using h0.2.1, by simpa using h0.2.2, ?_⟩
  have hget : (triangulationIndices 512).get? 0 = some 0 := by
    rw [List.get?_eq_getElem?]
    simpa using h0.1
  exact h.2.1 0 (List.get?_mem hget)

/-- Claim C6 counterexample: the per-vertex angle at index 256 is `π/2`
(the code divides by `bufferLength = 512`), which differs from the claimed
`256/511 · 2π − π/2`. -/
theorem claim6_counterexample :
    vertexAngle 256 ≠ (256 / 511 : ℝ) * (2 * Real.pi) - Real.pi / 2 := by
  have hpi : 0 < Real.pi := Real.pi_pos
  rw [vertexAngle]
  have hb : ((bufferLength : ℕ) : ℝ) = 512 := by norm_num [bufferLength]
  rw [hb]
  intro h
  have h2 : ((256 : ℕ) : ℝ) = 256 := by norm_num
  rw [h2] at h
  nlinarith

/-- Claim C6 amended: in the per-frame update of both layer kinds, the angle
used for angular index `i` equals `i/512 · 2π − π/2` (the code divides by the
buffer length 512, not 511). -/
theorem claim6_amended (i : ℕ) :
    vertexAngle i = (i : ℝ) / 512 * (2 * Real.pi) - Real.pi / 2 := by
  rw [vertexAngle]
  have hb : ((bufferLength : ℕ) : ℝ) = 512 := by norm_num [bufferLength]
  rw [hb]
  ring

/-! ### Frames without audio -/

theorem filledFrame_none (p : FilledProps) (rot : ℕ → ℝ) (time : ℝ) (rand : ℕ → ℝ)
    (st : FilledState) : filledFrame p rot none time rand st = st := rfl

theorem outlineFrame_none (q : OutlineProps) (rot : ℕ → ℝ) (time : ℝ) (rand : ℕ → ℝ)
    (st : OutlineState) : outlineFrame q rot none time rand st = st := rfl

/-- Claim C4: when the audio sampler is unavailable (analyser ref null, matching
the early-return guard), each layer's per-frame update is a complete no-op: the
state (radii, speed multiplier, positions) is unchanged on every frame, any run
from mount leaves the state exactly at its initial value, and the initial
positions are exactly the circle of radius `baseRadius` (so no undulation is
applied either). -/
theorem claim4_no_audio_noop (p : FilledProps) (q : OutlineProps) (rotF rotO : ℕ → ℝ)
    (times : ℕ → ℝ) (rands : ℕ → ℕ → ℝ) :
    (∀ (st : FilledState) (time : ℝ) (rand : ℕ → ℝ),
      filledFrame p rotF none time rand st = st) ∧
    (∀ (st : OutlineState) (time : ℝ) (rand : ℕ → ℝ),
      outlineFrame q rotO none time rand st = st) ∧
    (∀ n, filledIterate p rotF (fun _ => none) times rands n = FilledState.init p) ∧
    (∀ n, outlineIterate q rotO (fun _ => none) times rands n = OutlineState.init q) ∧
    (∀ i : Fin bufferLength,
      (FilledState.init p).positions.getD (i.val * 6) 0 =
        Real.cos (vertexAngle i.val) * p.baseRadius ∧
      (FilledState.init p).positions.getD (i.val * 6 + 1) 0 =
        Real.sin (vertexAngle i.val) * p.baseRadius ∧
      (FilledState.init p).currentRadii.getD i.val 0 = p.baseRadius) ∧
    (∀ i : Fin bufferLength,
      (OutlineState.init q).positions.getD (i.val * 3) 0 =
        Real.cos (vertexAngle i.val) * q.baseRadius ∧
      (OutlineState.init q).positions.getD (i.val * 3 + 1) 0 =
        Real.sin (vertexAngle i.val) * q.baseRadius ∧
      (OutlineState.init q).currentRadii.getD i.val 0 = q.baseRadius) := by
  have hiF : ∀ n, filledIterate p rotF (fun _ => none) times rands n = FilledState.init p := by
    intro n
    induction n with
    | zero => rfl
    | succ n ih => rw [filledIterate, filledFrame_none, ih]
  have hiO : ∀ n, outlineIterate q rotO (fun _ => none) times rands n = OutlineState.init q := by
    intro n
    induction n with
    | zero => rfl
    | succ n ih => rw [outlineIterate, outlineFrame_none, ih]
  refine ⟨fun st time rand => rfl, fun st time rand => rfl, hiF, hiO, ?_, ?_⟩
  · intro i
    have hi := i.isLt
    have h0 : i.val * 6 < bufferLength * 2 * 3 := by omega
    have h1 : i.val * 6 + 1 < bufferLength * 2 * 3 := by omega
    have hm0 : i.val * 6 % 6 = 0 := by omega
    have hm1 : (i.val * 6 + 1) % 6 = 1 := by omega
    have hd0 : i.val * 6 / 6 = i.val := by omega
    have hd1 : (i.val * 6 + 1) / 6 = i.val := by omega
    refine ⟨?_, ?_, ?_⟩
    · rw [FilledState.init]
      rw [initialFilledPositions, getD_ofFn _ _ h0]
      simp [hm0, hd0]
    · rw [FilledState.init]
      rw [initialFilledPositions, getD_ofFn _ _ h1]
      simp [hm1, hd1]
    · rw [FilledState.init]
      exact getD_mkArray _ _ _ hi
  · intro i
    have hi := i.isLt
    have h0 : i.val * 3 < bufferLength * 3 := by omega
    have h1 : i.val * 3 + 1 < bufferLength * 3 := by omega
    have hm0 : i.val * 3 % 3 = 0 := by omega
    have hm1 : (i.val * 3 + 1) % 3 = 1 := by omega
    have hd0 : i.val * 3 / 3 = i.val := by omega
    have hd1 : (i.val * 3 + 1) / 3 = i.val := by omega
    refine ⟨?_, ?_, ?_⟩
    · rw [OutlineState.init]
      rw [initialOutlinePositions, getD_ofFn _ _ h0]
      simp [hm0, hd0]
    · rw [OutlineState.init]
      rw [initialOutlinePositions, getD_ofFn _ _ h1]
      simp [hm1, hd1]
    · rw [OutlineState.init]
      exact getD_mkArray _ _ _ hi

/-! ### Untouched position components -/

theorem filled_untouched_zero (p : FilledProps) (rot : ℕ → ℝ) (audio : ℕ → Option (ℕ → ℝ))
    (times : ℕ → ℝ) (rands : ℕ → ℕ → ℝ) (n j : ℕ) (hj : 2 ≤ j % 6) :
    (filledIterate p rot audio times rands n).positions.getD j 0 = 0 := by
  induction n with
  | zero =>
    rcases Nat.lt_or_ge j (bufferLength * 2 * 3) with h | h
    · have h0 : ¬ j % 6 = 0 := by omega
      have h1 : ¬ j % 6 = 1 := by omega
      rw [filledIterate]
      rw [FilledState.init]
      rw [initialFilledPositions, getD_ofFn _ _ h]
      simp [h0, h1]
    · apply getD_of_size_le
      rw [filledIterate]
      rw [FilledState.init]
      simpa [initialFilledPositions] using h
  | succ n ih =>
    rw [filledIterate]
    cases audio n with
    | none => simpa [filledFrame] using ih
    | some d =>
      simp only [filledFrame]
      rw [getD_updateFilledPositions_untouched _ _ _ hj]
      exact ih

theorem outline_untouched_zero (q : OutlineProps) (rot : ℕ → ℝ) (audio : ℕ → Option (ℕ → ℝ))
    (times : ℕ → ℝ) (rands : ℕ → ℕ → ℝ) (n j : ℕ) (hj : j % 3 = 2) :
    (outlineIterate q rot audio times rands n).positions.getD j 0 = 0 := by
  induction n with
  | zero =>
    rcases Nat.lt_or_ge j (bufferLength * 3) with h | h
    · have h0 : ¬ j % 3 = 0 := by omega
      have h1 : ¬ j % 3 = 1 := by omega
      rw [outlineIterate]
      rw [OutlineState.init]
      rw [initialOutlinePositions, getD_ofFn _ _ h]
      simp [h0, h1]
    · apply getD_of_size_le
      rw [outlineIterate]
      rw [OutlineState.init]
      simpa [initialOutlinePositions] using h
  | succ n ih =>
    rw [outlineIterate]
    cases audio n with
    | none => simpa [outlineFrame] using ih
    | some d =>
      simp only [outlineFrame]
      rw [getD_updateOutlinePositions_untouched _ _ _ hj]
      exact ih

/-- Claim C10: the per-frame update writes only the x and y components of edge
vertices. For the filled layer every center-vertex component (slots
`6i + 3 .. 6i + 5`) and every z component (slots `6i + 2`) stays exactly at its
initial value 0 after any number of frames; for the outline layer every z
component (slots `3i + 2`) stays exactly 0. -/
theorem claim10_untouched_components (p : FilledProps) (q : OutlineProps) (rotF rotO : ℕ → ℝ)
    (audioF audioO : ℕ → Option (ℕ → ℝ)) (timesF timesO : ℕ → ℝ)
    (randsF randsO : ℕ → ℕ → ℝ) :
    (∀ n j, 2 ≤ j % 6 →
      (filledIterate p rotF audioF timesF randsF n).positions.getD j 0 = 0) ∧
    (∀ n j, j % 3 = 2 →
      (outlineIterate q rotO audioO timesO randsO n).positions.getD j 0 = 0) :=
  ⟨fun n j hj => filled_untouched_zero p rotF audioF timesF randsF n j hj,
   fun n j hj => outline_untouched_zero q rotO audioO timesO randsO n j hj⟩

/-- Witness for C10: concrete z and center components after 3 frames are 0. -/
theorem claim10_witness :
    (filledIterate filledDefaults (fun _ => 1) (fun _ => some buffer255) (fun _ => 0)
      (fun _ _ => 0) 3).positions.getD 2 0 = 0 ∧
    (filledIterate filledDefaults (fun _ => 1) (fun _ => some buffer255) (fun _ => 0)
      (fun _ _ => 0) 3).positions.getD 3 0 = 0 ∧
    (outlineIterate outlineDefaults (fun _ => 1) (fun _ => some buffer255) (fun _ => 0)
      (fun _ _ => 0) 3).positions.getD 5 0 = 0 := by
  have h := claim10_untouched_components filledDefaults outlineDefaults
    (fun _ => 1) (fun _ => 1) (fun _ => some buffer255) (fun _ => some buffer255)
    (fun _ => 0) (fun _ => 0) (fun _ _ => 0) (fun _ _ => 0)
  exact ⟨h.1 3 2 (by norm_num), h.1 3 3 (by norm_num), h.2 3 5 (by norm_num)⟩

/-! ### Layer compositor and the speed factor -/

/-- Claim C7 counterexample: at the scene's initial control values, changing only
the speed factor (`0.04` to `3`) leaves the first outline layer's derived
parameters completely unchanged, so not every layer derives from all five
shared control scalars. -/
theorem claim7_counterexample :
    (audioWaveformLayers 4.4 0.89 0.78 0.04 1.25)[1]? =
      (audioWaveformLayers 4.4 0.89 0.78 3 1.25)[1]? ∧ (0.04 : ℝ) ≠ 3 :=
  ⟨rfl, by norm_num⟩

/-- Claim C7 amended: each of the three filled layers derives from all five
shared control scalars, and changing the speed factor changes every filled
layer's derived parameters; but the three outline layers derive only from size,
amplitude factor, audio factor and pulse scale — the speed factor does not
affect them (their speed-multiplier target uses the hardcoded constant 0.5). -/
theorem claim7_amended (size amplitudeFactor audioFactor pulseScale v w : ℝ) (hvw : v ≠ w) :
    ((audioWaveformLayers size amplitudeFactor audioFactor v pulseScale)[1]? =
      (audioWaveformLayers size amplitudeFactor audioFactor w pulseScale)[1]?) ∧
    ((audioWaveformLayers size amplitudeFactor audioFactor v pulseScale)[3]? =
      (audioWaveformLayers size amplitudeFactor audioFactor w pulseScale)[3]?) ∧
    ((audioWaveformLayers size amplitudeFactor audioFactor v pulseScale)[5]? =
      (audioWaveformLayers size amplitudeFactor audioFactor w pulseScale)[5]?) ∧
    ((audioWaveformLayers size amplitudeFactor audioFactor v pulseScale)[0]? ≠
      (audioWaveformLayers size amplitudeFactor audioFactor w pulseScale)[0]?) ∧
    ((audioWaveformLayers size amplitudeFactor audioFactor v pulseScale)[2]? ≠
      (audioWaveformLayers size amplitudeFactor audioFactor w pulseScale)[2]?) ∧
    ((audioWaveformLayers size amplitudeFactor audioFactor v pulseScale)[4]? ≠
      (audioWaveformLayers size amplitudeFactor audioFactor w pulseScale)[4]?) := by
  have hmul : ∀ c : ℝ, c ≠ 0 → ¬ v * c = w * c := fun c hc h => hvw (mul_right_cancel₀ hc h)
  refine ⟨rfl, rfl, rfl, ?_, ?_, ?_⟩
  · intro h
    simp only [audioWaveformLayers, List.getElem?_cons_zero, Option.some.injEq,
      WaveLayer.filled.injEq, FilledProps.mk.injEq] at h
    exact hmul 0.75 (by norm_num) h.2.2.2.2.2.2.1
  · intro h
    simp only [audioWaveformLayers] at h
    simp only [List.getElem?_cons_succ, List.getElem?_cons_zero, Option.some.injEq,
      WaveLayer.filled.injEq, FilledProps.mk.injEq] at h
    exact hmul 0.5 (by norm_num) h.2.2.2.2.2.2.1
  · intro h
    simp only [audioWaveformLayers] at h
    simp only [List.getElem?_cons_succ, List.getElem?_cons_zero, Option.some.injEq,
      WaveLayer.filled.injEq, FilledProps.mk.injEq] at h
    exact hmul 0.375 (by norm_num) h.2.2.2.2.2.2.1

/-- Witness for C7 amended at the scene's initial slider values. -/
theorem claim7_witness :
    (audioWaveformLayers 4.4 0.89 0.78 0.04 1.25)[3]? =
      (audioWaveformLayers 4.4 0.89 0.78 3 1.25)[3]? ∧
    (audioWaveformLayers 4.4 0.89 0.78 0.04 1.25)[0]? ≠
      (audioWaveformLayers 4.4 0.89 0.78 3 1.25)[0]? := by
  have h := claim7_amended 4.4 0.89 0.78 1.25 0.04 3 (by norm_num)
  exact ⟨h.2.1, h.2.2.2.1⟩

/-! ### Silent buffer behavior -/

theorem averageAudio_silent (audioScale : ℝ) : averageAudio audioScale silentBuffer = 0 := by
  rw [averageAudio]
  simp [silentBuffer]

theorem smoothedAudio_silent (i : ℕ) : smoothedAudio silentBuffer i = 128 := by
  rw [smoothedAudio]
  simp only [silentBuffer]
  norm_num

theorem audioEffect_silent (audioScale amplification : ℝ) (i : ℕ) :
    audioEffect audioScale amplification silentBuffer i = 0 := by
  rw [audioEffect, smoothedAudio_silent]
  simp

theorem filledRandomness_zero (rand : ℕ → ℝ) (i : ℕ) : filledRandomness 0 rand i = 0 := by
  rw [filledRandomness]
  simp

theorem outlineRandomness_zero (rand : ℕ → ℝ) (i : ℕ) : outlineRandomness 0 rand i = 0 := by
  rw [outlineRandomness]
  simp

theorem pulseEffect_zero (baseRadius pulseScale : ℝ) : pulseEffect baseRadius 0 pulseScale = 0 := by
  rw [pulseEffect]
  simp

theorem filledRadiiTarget_silent (p : FilledProps) (rand : ℕ → ℝ) (i : ℕ) :
    filledRadiiTarget p (averageAudio p.audioScale silentBuffer) silentBuffer rand i =
      p.baseRadius := by
  rw [filledRadiiTarget, averageAudio_silent, pulseEffect_zero, audioEffect_silent,
    filledRandomness_zero]
  ring

theorem outlineRadiiTarget_silent (q : OutlineProps) (rand : ℕ → ℝ) (i : ℕ) :
    outlineRadiiTarget q (averageAudio q.audioScale silentBuffer) silentBuffer rand i =
      q.baseRadius := by
  rw [outlineRadiiTarget, averageAudio_silent, pulseEffect_zero, audioEffect_silent,
    outlineRandomness_zero]
  ring

theorem filledFrame_silent_radii (p : FilledProps) (rot : ℕ → ℝ) (time : ℝ) (rand : ℕ → ℝ)
    (st : FilledState) (i : ℕ) (hi : i < st.currentRadii.size) :
    (filledFrame p rot (some silentBuffer) time rand st).currentRadii.getD i 0 - p.baseRadius =
      (1 - p.smoothingFactor) * (st.currentRadii.getD i 0 - p.baseRadius) := by
  simp only [filledFrame]
  rw [getD_updateRadii _ _ _ _ hi, filledRadiiTarget_silent]
  ring

theorem filledIterate_silent_radii (p : FilledProps) (rot : ℕ → ℝ) (times : ℕ → ℝ)
    (rands : ℕ → ℕ → ℝ) (n : ℕ) (i : ℕ) (hi : i < bufferLength) :
    (filledIterate p rot (fun _ => some silentBuffer) times rands n).currentRadii.getD i 0 =
      p.baseRadius := by
  induction n with
  | zero =>
    rw [filledIterate, FilledState.init]
    exact getD_mkArray _ _ _ hi
  | succ n ih =>
    have hsz : i < (filledIterate p rot (fun _ => some silentBuffer) times rands
        n).currentRadii.size := by
      rw [filled_radii_size]
      exact hi
    rw [filledIterate]
    have h := filledFrame_silent_radii p rot (times n) (rands n) _ i hsz
    rw [ih] at h
    linarith [h]

theorem outlineFrame_silent_radii (q : OutlineProps) (rot : ℕ → ℝ) (time : ℝ) (rand : ℕ → ℝ)
    (st : OutlineState) (i : ℕ) (hi : i < st.currentRadii.size) :
    (outlineFrame q rot (some silentBuffer) time rand st).currentRadii.getD i 0 - q.baseRadius =
      (1 - dynamicSmoothingFactor q (averageAudio q.audioScale silentBuffer)
          st.previousAudioLevel) *
        (st.currentRadii.getD i 0 - q.baseRadius) := by
  simp only [outlineFrame]
  rw [getD_updateRadii _ _ _ _ hi, outlineRadiiTarget_silent]
  ring

theorem outlineIterate_silent_radii (q : OutlineProps) (rot : ℕ → ℝ) (times : ℕ → ℝ)
    (rands : ℕ → ℕ → ℝ) (n : ℕ) (i : ℕ) (hi : i < bufferLength) :
    (outlineIterate q rot (fun _ => some silentBuffer) times rands n).currentRadii.getD i 0 =
      q.baseRadius := by
  induction n with
  | zero =>
    rw [outlineIterate, OutlineState.init]
    exact getD_mkArray _ _ _ hi
  | succ n ih =>
    have hsz : i < (outlineIterate q rot (fun _ => some silentBuffer) times rands
        n).currentRadii.size := by
      rw [outline_radii_size]
      exact hi
    rw [outlineIterate]
    have h := outlineFrame_silent_radii q rot (times n) (rands n) _ i hsz
    rw [ih, sub_self, mul_zero] at h
    linarith [h]

/-- Claim C1: if the audio buffer holds all bytes equal to 128 on every frame,
then for both layer kinds `averageAudio` is exactly 0, the randomness, pulse
and audio-effect terms are exactly 0, on each frame the per-vertex radius state
satisfies `radius' - baseRadius = (1 - smoothingFactor) * (radius - baseRadius)`
(for the filled layer this holds from any radius state; along the silent run
the radii moreover stay exactly at `baseRadius`, so it holds for the outline
layer as well), for `0 < smoothingFactor ≤ 1` the radius converges to
`baseRadius`, and the rendered radius equals `baseRadius` plus the undulation
term, a deterministic function of angle, elapsed time and the fixed rotation
signs. -/
theorem claim1_silent_convergence (p : FilledProps) (q : OutlineProps) (rotF rotO : ℕ → ℝ)
    (timesF timesO : ℕ → ℝ) (randsF randsO : ℕ → ℕ → ℝ) :
    averageAudio p.audioScale silentBuffer = 0 ∧
    averageAudio q.audioScale silentBuffer = 0 ∧
    (∀ (rand : ℕ → ℝ) (i : ℕ),
      filledRandomness (averageAudio p.audioScale silentBuffer) rand i = 0) ∧
    (∀ (rand : ℕ → ℝ) (i : ℕ),
      outlineRandomness (averageAudio q.audioScale silentBuffer) rand i = 0) ∧
    pulseEffect p.baseRadius (averageAudio p.audioScale silentBuffer) p.pulseScale = 0 ∧
    pulseEffect q.baseRadius (averageAudio q.audioScale silentBuffer) q.pulseScale = 0 ∧
    (∀ i : ℕ, audioEffect p.audioScale
      (audioAmplification (averageAudio p.audioScale silentBuffer)) silentBuffer i = 0) ∧
    (∀ i : ℕ, audioEffect q.audioScale
      (audioAmplification (averageAudio q.audioScale silentBuffer)) silentBuffer i = 0) ∧
    (∀ (st : FilledState) (time : ℝ) (rand : ℕ → ℝ) (i : ℕ), i < st.currentRadii.size →
      (filledFrame p rotF (some silentBuffer) time rand st).currentRadii.getD i 0 -
          p.baseRadius =
        (1 - p.smoothingFactor) * (st.currentRadii.getD i 0 - p.baseRadius)) ∧
    (∀ (n : ℕ) (i : Fin bufferLength),
      (filledIterate p rotF (fun _ => some silentBuffer) timesF randsF
          n).currentRadii.getD i.val 0 = p.baseRadius) ∧
    (∀ (n : ℕ) (i : Fin bufferLength),
      (outlineIterate q rotO (fun _ => some silentBuffer) timesO randsO
          n).currentRadii.getD i.val 0 = q.baseRadius) ∧
    (∀ (n : ℕ) (i : Fin bufferLength),
      (filledIterate p rotF (fun _ => some silentBuffer) timesF randsF
          (n + 1)).currentRadii.getD i.val 0 - p.baseRadius =
        (1 - p.smoothingFactor) *
          ((filledIterate p rotF (fun _ => some silentBuffer) timesF randsF
            n).currentRadii.getD i.val 0 - p.baseRadius)) ∧
    (∀ (n : ℕ) (i : Fin bufferLength),
      (outlineIterate q rotO (fun _ => some silentBuffer) timesO randsO
          (n + 1)).currentRadii.getD i.val 0 - q.baseRadius =
        (1 - q.smoothingFactor) *
          ((outlineIterate q rotO (fun _ => some silentBuffer) timesO randsO
            n).currentRadii.getD i.val 0 - q.baseRadius)) ∧
    (0 < p.smoothingFactor → p.smoothingFactor ≤ 1 → ∀ i : Fin bufferLength,
      Filter.Tendsto (fun n => (filledIterate p rotF (fun _ => some silentBuffer) timesF randsF
          n).currentRadii.getD i.val 0) Filter.atTop (nhds p.baseRadius)) ∧
    (0 < q.smoothingFactor → q.smoothingFactor ≤ 1 → ∀ i : Fin bufferLength,
      Filter.Tendsto (fun n => (outlineIterate q rotO (fun _ => some silentBuffer) timesO randsO
          n).currentRadii.getD i.val 0) Filter.atTop (nhds q.baseRadius)) ∧
    (∀ (n : ℕ) (i : Fin bufferLength),
      filledRenderedRadius p rotF
          (filledIterate p rotF (fun _ => some silentBuffer) timesF randsF (n + 1))
          (timesF n) i.val =
        p.baseRadius + undulation p.undulationPattern rotF
          ((filledIterate p rotF (fun _ => some silentBuffer) timesF randsF
            (n + 1)).previousSpeedMultiplier) (timesF n) (vertexAngle i.val)) ∧
    (∀ (n : ℕ) (i : Fin bufferLength),
      outlineRenderedRadius q rotO
          (outlineIterate q rotO (fun _ => some silentBuffer) timesO randsO (n + 1))
          (timesO n) i.val =
        q.baseRadius + undulation q.undulationPattern rotO
          ((outlineIterate q rotO (fun _ => some silentBuffer) timesO randsO
            (n + 1)).previousSpeedMultiplier) (timesO n) (vertexAngle i.val)) := by
  have hconstF := filledIterate_silent_radii p rotF timesF randsF
  have hconstO := outlineIterate_silent_radii q rotO timesO randsO
  refine ⟨averageAudio_silent _, averageAudio_silent _, ?_, ?_, ?_, ?_, ?_, ?_, ?_, ?_, ?_,
    ?_, ?_, ?_, ?_, ?_, ?_⟩
  · intro rand i
    rw [averageAudio_silent]
    exact filledRandomness_zero rand i
  · intro rand i
    rw [averageAudio_silent]
    exact outlineRandomness_zero rand i
  · rw [averageAudio_silent]
    exact pulseEffect_zero _ _
  · rw [averageAudio_silent]
    exact pulseEffect_zero _ _
  · intro i
    exact audioEffect_silent _ _ i
  · intro i
    exact audioEffect_silent _ _ i
  · intro st time rand i hi
    exact filledFrame_silent_radii p rotF time rand st i hi
  · intro n i
    exact hconstF n i.val i.isLt
  · intro n i
    exact hconstO n i.val i.isLt
  · intro n i
    rw [hconstF (n + 1) i.val i.isLt, hconstF n i.val i.isLt]
    ring
  · intro n i
    rw [hconstO (n + 1) i.val i.isLt, hconstO n i.val i.isLt]
    ring
  · intro h0 h1 i
    have : (fun n => (filledIterate p rotF (fun _ => some silentBuffer) timesF randsF
        n).currentRadii.getD i.val 0) = fun _ => p.baseRadius := by
      funext n
      exact hconstF n i.val i.isLt
    rw [this]
    exact tendsto_const_nhds
  · intro h0 h1 i
    have : (fun n => (outlineIterate q rotO (fun _ => some silentBuffer) timesO randsO
        n).currentRadii.getD i.val 0) = fun _ => q.baseRadius := by
      funext n
      exact hconstO n i.val i.isLt
    rw [this]
    exact tendsto_const_nhds
  · intro n i
    rw [filledRenderedRadius, hconstF (n + 1) i.val i.isLt]
  · intro n i
    rw [outlineRenderedRadius, hconstO (n + 1) i.val i.isLt]

/-- Witness for C1: the per-frame radius law at the default filled props from
the initial state, and convergence at the default smoothing factor. -/
theorem claim1_witness :
    (filledFrame filledDefaults (fun _ => 1) (some silentBuffer) 0 (fun _ => 0)
        (FilledState.init filledDefaults)).currentRadii.getD 0 0 - (10 : ℝ) =
      (1 - (0.1 : ℝ)) *
        ((FilledState.init filledDefaults).currentRadii.getD 0 0 - 10) ∧
    Filter.Tendsto (fun n => (filledIterate filledDefaults (fun _ => 1)
        (fun _ => some silentBuffer) (fun _ => 0) (fun _ _ => 0) n).currentRadii.getD 0 0)
      Filter.atTop (nhds (10 : ℝ)) := by
  have h := claim1_silent_convergence filledDefaults outlineDefaults (fun _ => 1) (fun _ => 1)
    (fun _ => 0) (fun _ => 0) (fun _ _ => 0) (fun _ _ => 0)
  obtain ⟨-, -, -, -, -, -, -, -, hlaw, -, -, -, -, htend, -, -, -⟩ := h
  constructor
  · have hi : (0 : ℕ) < (FilledState.init filledDefaults).currentRadii.size := by
      simp [FilledState.init, bufferLength]
    have := hlaw (FilledState.init filledDefaults) 0 (fun _ => 0) 0 hi
    simpa [filledDefaults] using this
  · have := htend (by norm_num [filledDefaults]) (by norm_num [filledDefaults])
      ⟨0, by norm_num [bufferLength]⟩
    simpa [filledDefaults] using this

/-! ### Undulation bounds -/

theorem foldl_add_sum {α : Type} (g : α → ℝ) (l : List α) :
    ∀ acc : ℝ, l.foldl (fun a x => a + g x) acc = acc + (l.map g).sum := by
  induction l with
  | nil => intro acc; simp
  | cons a l ih =>
    intro acc
    rw [List.foldl_cons, ih, List.map_cons, List.sum_cons]
    ring

theorem undulation_eq_sum (pattern : List UndTerm) (rot : ℕ → ℝ) (m t θ : ℝ) :
    undulation pattern rot m t θ = (pattern.enum.map (undulationTerm rot m t θ)).sum := by
  rw [undulation, foldl_add_sum]
  exact zero_add _

theorem list_abs_sum_le (l : List ℝ) : |l.sum| ≤ (l.map (fun x => |x|)).sum := by
  induction l with
  | nil => simp
  | cons a l ih =>
    rw [List.sum_cons, List.map_cons, List.sum_cons]
    exact le_trans (abs_add a l.sum) (by linarith)

theorem undulationTerm_abs_le (rot : ℕ → ℝ) (m t θ : ℝ) (x : ℕ × UndTerm)
    (h : 0 ≤ x.2.amplitude) : |undulationTerm rot m t θ x| ≤ 2 * x.2.amplitude := by
  rw [undulationTerm]
  set y := θ * x.2.frequency + t * min (x.2.speed * 2) (x.2.speed * m) * rot x.1 with hy
  rw [abs_le]
  have h1 := Real.sin_le_one y
  have h2 := Real.neg_one_le_sin y
  have h3 := Real.cos_le_one y
  have h4 := Real.neg_one_le_cos y
  constructor <;> nlinarith

theorem undulation_abs_le (pattern : List UndTerm) (rot : ℕ → ℝ) (m t θ : ℝ)
    (h : ∀ u ∈ pattern, 0 ≤ u.amplitude) :
    |undulation pattern rot m t θ| ≤ (pattern.map (fun u => 2 * u.amplitude)).sum := by
  rw [undulation_eq_sum]
  refine le_trans (list_abs_sum_le _) ?_
  rw [List.map_map]
  have hstep : ((pattern.enum.map (fun x => |undulationTerm rot m t θ x|)).sum ≤
      (pattern.enum.map (fun x => 2 * x.2.amplitude)).sum) := by
    apply List.sum_le_sum
    intro x hx
    apply undulationTerm_abs_le
    apply h
    have hmem : x.2 ∈ pattern.enum.map Prod.snd := List.mem_map_of_mem Prod.snd hx
    rwa [List.enum_map_snd] at hmem
  refine le_trans hstep ?_
  have hco : (fun (x : ℕ × UndTerm) => 2 * x.2.amplitude) =
      (fun u : UndTerm => 2 * u.amplitude) ∘ Prod.snd := rfl
  rw [hco, ← List.map_map, List.enum_map_snd]

/-! ### Loud constant buffer (all bytes 255) at the default filled props -/

theorem averageAudio_255 : averageAudio filledDefaults.audioScale buffer255 = 508 / 5 := by
  rw [averageAudio]
  have hc : ∀ i ∈ Finset.range bufferLength, |buffer255 i - 128| = (127 : ℝ) := by
    intro i _
    rw [buffer255]
    norm_num
  rw [Finset.sum_congr rfl hc, Finset.sum_const]
  have ha : filledDefaults.audioScale = 0.8 := rfl
  rw [ha]
  norm_num [bufferLength]

theorem audioAmplification_255 : audioAmplification (508 / 5 : ℝ) = 207 / 80 := by
  rw [audioAmplification]
  norm_num

theorem smoothedAudio_255 (i : ℕ) : smoothedAudio buffer255 i = 255 := by
  rw [smoothedAudio]
  simp only [buffer255]
  norm_num

theorem filledRadiiTarget_255 (rand : ℕ → ℝ) (i : ℕ) :
    filledRadiiTarget filledDefaults (508 / 5) buffer255 rand i =
      174609 / 12800 + (rand i - 0.5) * (127 / 160) := by
  rw [filledRadiiTarget, pulseEffect, audioEffect, smoothedAudio_255, filledRandomness]
  have h1 : filledDefaults.baseRadius = 10 := rfl
  have h2 : filledDefaults.pulseScale = 0.2 := rfl
  have h3 : filledDefaults.audioScale = 0.8 := rfl
  rw [h1, h2, h3, audioAmplification_255]
  ring_nf

theorem filled255_step (rot : ℕ → ℝ) (time : ℝ) (rand : ℕ → ℝ) (st : FilledState)
    (i : ℕ) (hi : i < st.currentRadii.size) :
    (filledFrame filledDefaults rot (some buffer255) time rand st).currentRadii.getD i 0 =
      st.currentRadii.getD i 0 +
        (174609 / 12800 + (rand i - 0.5) * (127 / 160) - st.currentRadii.getD i 0) *
          (1 / 10) := by
  simp only [filledFrame]
  rw [getD_updateRadii _ _ _ _ hi, averageAudio_255, filledRadiiTarget_255]
  have hs : filledDefaults.smoothingFactor = 0.1 := rfl
  rw [hs]
  norm_num

theorem filled255_radii_bounds (rot : ℕ → ℝ) (times : ℕ → ℝ) (rands : ℕ → ℕ → ℝ)
    (hr : ∀ n i, 0 ≤ rands n i ∧ rands n i < 1) (n : ℕ) (i : ℕ) (hi : i < bufferLength) :
    169529 / 12800 - 41529 / 12800 * (9 / 10 : ℝ) ^ n ≤
      (filledIterate filledDefaults rot (fun _ => some buffer255) times rands
        n).currentRadii.getD i 0 ∧
    (filledIterate filledDefaults rot (fun _ => some buffer255) times rands
        n).currentRadii.getD i 0 ≤ 1407 / 100 := by
  induction n with
  | zero =>
    rw [filledIterate, FilledState.init, getD_mkArray _ _ _ hi]
    have hb : filledDefaults.baseRadius = 10 := rfl
    rw [hb]
    norm_num
  | succ n ih =>
    have hsz : i < (filledIterate filledDefaults rot (fun _ => some buffer255) times rands
        n).currentRadii.size := by
      rw [filled_radii_size]
      exact hi
    rw [filledIterate, filled255_step rot (times n) (rands n) _ i hsz]
    obtain ⟨hl, hu⟩ := ih
    obtain ⟨hr0, hr1⟩ := hr n i
    have hq0 : (0 : ℝ) ≤ (9 / 10 : ℝ) ^ n := by positivity
    have hpow : (9 / 10 : ℝ) ^ (n + 1) = 9 / 10 * (9 / 10 : ℝ) ^ n := by
      rw [pow_succ]
      ring
    constructor
    · rw [hpow]
      linarith
    · linarith

/-- Claim C9: with the default filled-layer props and a constant all-255 buffer
fed for 60 frames (randomness drawn from any source with values in `[0,1)`),
the filled layer's average rendered radius over all 512 angular samples is
strictly greater than `baseRadius`, and every rendered radius is at most
`baseRadius*(1 + pulseScale) + audioScale*amplificationBound +` the sum over
undulation terms of `2*amplitude`, where the amplification bound is the
amplification factor `1 + 2*(averageAudio/128)` itself. -/
theorem claim9_loud_buffer (rot : ℕ → ℝ) (times : ℕ → ℝ) (rands : ℕ → ℕ → ℝ)
    (hr : ∀ n i, 0 ≤ rands n i ∧ rands n i < 1) :
    ((∑ i in Finset.range bufferLength, filledRenderedRadius filledDefaults rot
        (filledIterate filledDefaults rot (fun _ => some buffer255) times rands 60)
        (times 59) i) / bufferLength > filledDefaults.baseRadius) ∧
    (∀ i : Fin bufferLength, filledRenderedRadius filledDefaults rot
        (filledIterate filledDefaults rot (fun _ => some buffer255) times rands 60)
        (times 59) i.val ≤
      filledDefaults.baseRadius * (1 + filledDefaults.pulseScale) +
        filledDefaults.audioScale *
          audioAmplification (averageAudio filledDefaults.audioScale buffer255) +
        (filledDefaults.undulationPattern.map (fun u => 2 * u.amplitude)).sum) := by
  have hpat : filledDefaults.undulationPattern =
      [⟨3, 0.3, 0.8⟩, ⟨5, 0.2, 0.5⟩, ⟨2, 0.4, 1.2⟩] := rfl
  have hamp : ∀ u ∈ filledDefaults.undulationPattern, 0 ≤ u.amplitude := by
    intro u hu
    rw [hpat] at hu
    simp only [List.mem_cons, List.not_mem_nil, or_false] at hu
    rcases hu with h | h | h <;> (rw [h]; norm_num)
  have hsum : (filledDefaults.undulationPattern.map (fun u => 2 * u.amplitude)).sum = 9 / 5 := by
    rw [hpat]
    simp only [List.map_cons, List.map_nil, List.sum_cons, List.sum_nil]
    norm_num
  have hpow : ((9 : ℝ) / 10) ^ 60 ≤ 9 / 5000 := by norm_num
  have hbound : ∀ i : ℕ, i < bufferLength →
      11 ≤ filledRenderedRadius filledDefaults rot
        (filledIterate filledDefaults rot (fun _ => some buffer255) times rands 60)
        (times 59) i ∧
      filledRenderedRadius filledDefaults rot
        (filledIterate filledDefaults rot (fun _ => some buffer255) times rands 60)
        (times 59) i ≤ 1587 / 100 := by
    intro i hi
    obtain ⟨hl, hu⟩ := filled255_radii_bounds rot times rands hr 60 i hi
    have hund := undulation_abs_le filledDefaults.undulationPattern rot
      ((filledIterate filledDefaults rot (fun _ => some buffer255) times rands
        60).previousSpeedMultiplier) (times 59) (vertexAngle i) hamp
    rw [hsum, abs_le] at hund
    rw [filledRenderedRadius]
    constructor
    · nlinarith [hund.1, hl, hpow]
    · linarith [hund.2, hu]
  constructor
  · have hsumlow : (512 : ℕ) • (11 : ℝ) ≤ ∑ i in Finset.range bufferLength,
        filledRenderedRadius filledDefaults rot
          (filledIterate filledDefaults rot (fun _ => some buffer255) times rands 60)
          (times 59) i := by
      have hcard : (Finset.range bufferLength).card = 512 := by
        simp [bufferLength]
      rw [← hcard]
      apply Finset.card_nsmul_le_sum
      intro i hi
      exact (hbound i (Finset.mem_range.mp hi)).1
    rw [nsmul_eq_mul] at hsumlow
    have hblen : ((bufferLength : ℕ) : ℝ) = 512 := by norm_num [bufferLength]
    have hbase : filledDefaults.baseRadius = 10 := rfl
    rw [hblen, hbase]
    have h512 : ((512 : ℕ) : ℝ) = 512 := by norm_num
    rw [h512] at hsumlow
    linarith
  · intro i
    have h := (hbound i.val i.isLt).2
    have hrhs : filledDefaults.baseRadius * (1 + filledDefaults.pulseScale) +
        filledDefaults.audioScale *
          audioAmplification (averageAudio filledDefaults.audioScale buffer255) +
        (filledDefaults.undulationPattern.map (fun u => 2 * u.amplitude)).sum =
        1587 / 100 := by
      rw [averageAudio_255, audioAmplification_255, hsum]
      have h1 : filledDefaults.baseRadius = 10 := rfl
      have h2 : filledDefaults.pulseScale = 0.2 := rfl
      have h3 : filledDefaults.audioScale = 0.8 := rfl
      rw [h1, h2, h3]
      norm_num
    rw [hrhs]
    exact h

/-- Witness for C9: zero randomness and zero timestamps satisfy the hypotheses;
the average rendered radius after 60 loud frames exceeds the base radius. -/
theorem claim9_witness :
    (∑ i in Finset.range bufferLength, filledRenderedRadius filledDefaults (fun _ => 1)
        (filledIterate filledDefaults (fun _ => 1) (fun _ => some buffer255) (fun _ => 0)
          (fun _ _ => 0) 60)
        0 i) / bufferLength > filledDefaults.baseRadius := by
  have h := claim9_loud_buffer (fun _ => 1) (fun _ => 0) (fun _ _ => 0)
    (fun n i => by norm_num)
  exact h.1
